import Mathlib

/-!
Verification of the Mergington High activity API (src/src/app.py, src/src/models.py).

The relational store is modelled as a `DBState`: the two tables (`activities`,
`participants`) as insertion-ordered lists of rows, plus the auto-increment
primary-key counters of the two tables.  The SQLAlchemy relationship
`activity.participants` is the insertion-ordered list of participant rows whose
`activity_id` equals the activity's id (`participantsOf`).  The three request
handlers and the startup seeding hook are translated directly from `app.py`;
an `HTTPException` raised before any write is modelled by returning
`Except.error` with the status code and detail string and no new state.
-/

namespace Mergington

/-- Row of the `activities` table (src/src/models.py, class Activity). -/
structure Activity where
  id : Nat
  name : String
  description : String
  schedule : String
  max_participants : Nat
deriving Repr, DecidableEq

/-- Row of the `participants` table (src/src/models.py, class Participant).
`activity_id` is the foreign key to the owning activity; every creation site
in the code supplies it, so it is modelled as a `Nat`. -/
structure Participant where
  id : Nat
  email : String
  activity_id : Nat
deriving Repr, DecidableEq

/-- The relational store: both tables in row-insertion order together with the
auto-increment id counters of the two tables. -/
structure DBState where
  activities : List Activity
  participants : List Participant
  nextActivityId : Nat
  nextParticipantId : Nat
deriving Repr, DecidableEq

/-- A raised `fastapi.HTTPException`: status code and detail string. -/
structure HTTPException where
  status_code : Nat
  detail : String
deriving Repr, DecidableEq

/-- `db.query(Activity).filter(Activity.name == activity_name).first()`. -/
def findActivity (db : DBState) (activity_name : String) : Option Activity :=
  db.activities.find? (fun a => a.name == activity_name)

/-- The relationship `activity.participants`: the participant rows owned by the
activity with id `aid`, in insertion order. -/
def participantsOf (db : DBState) (aid : Nat) : List Participant :=
  db.participants.filter (fun p => p.activity_id == aid)

/-- `signup_for_activity` (src/src/app.py lines 148-167): existence check,
duplicate check, capacity check (skipped when `max_participants` is falsy),
then insert-and-commit. -/
def signup_for_activity (activity_name email : String) (db : DBState) :
    Except HTTPException (String × DBState) :=
  match findActivity db activity_name with
  | none => Except.error ⟨404, "Activity not found"⟩
  | some activity =>
    if (participantsOf db activity.id).any (fun p => p.email == email) then
      Except.error ⟨400, "Student is already signed up"⟩
    else if activity.max_participants ≠ 0 ∧
        (participantsOf db activity.id).length ≥ activity.max_participants then
      Except.error ⟨400, "Activity is full"⟩
    else
      let participant : Participant := ⟨db.nextParticipantId, email, activity.id⟩
      Except.ok ("Signed up " ++ email ++ " for " ++ activity_name,
        { db with participants := db.participants ++ [participant],
                  nextParticipantId := db.nextParticipantId + 1 })

/-- `unregister_from_activity` (src/src/app.py lines 170-182): existence check,
membership check, then delete-and-commit.  `db.delete(participant)` deletes the
row found by the query, i.e. the row with that primary key. -/
def unregister_from_activity (activity_name email : String) (db : DBState) :
    Except HTTPException (String × DBState) :=
  match findActivity db activity_name with
  | none => Except.error ⟨404, "Activity not found"⟩
  | some activity =>
    match db.participants.find?
        (fun p => p.activity_id == activity.id && p.email == email) with
    | none => Except.error ⟨400, "Student is not signed up for this activity"⟩
    | some participant =>
      Except.ok ("Unregistered " ++ email ++ " from " ++ activity_name,
        { db with participants :=
            db.participants.eraseP (fun p => p.id == participant.id) })

/-- One entry of the `initial_activities` fixture dict (src/src/app.py). -/
structure FixtureActivity where
  name : String
  description : String
  schedule : String
  max_participants : Nat
  participants : List String
deriving Repr, DecidableEq

/-- The `initial_activities` fixture table (src/src/app.py lines 39-94), in
dict insertion order. -/
def initial_activities : List FixtureActivity :=
  [⟨"Chess Club",
    "Learn strategies and compete in chess tournaments",
    "Fridays, 3:30 PM - 5:00 PM", 12,
    ["michael@mergington.edu", "daniel@mergington.edu"]⟩,
   ⟨"Programming Class",
    "Learn programming fundamentals and build software projects",
    "Tuesdays and Thursdays, 3:30 PM - 4:30 PM", 20,
    ["emma@mergington.edu", "sophia@mergington.edu"]⟩,
   ⟨"Gym Class",
    "Physical education and sports activities",
    "Mondays, Wednesdays, Fridays, 2:00 PM - 3:00 PM", 30,
    ["john@mergington.edu", "olivia@mergington.edu"]⟩,
   ⟨"Soccer Team",
    "Join the school soccer team and compete in matches",
    "Tuesdays and Thursdays, 4:00 PM - 5:30 PM", 22,
    ["liam@mergington.edu", "noah@mergington.edu"]⟩,
   ⟨"Basketball Team",
    "Practice and play basketball with the school team",
    "Wednesdays and Fridays, 3:30 PM - 5:00 PM", 15,
    ["ava@mergington.edu", "mia@mergington.edu"]⟩,
   ⟨"Art Club",
    "Explore your creativity through painting and drawing",
    "Thursdays, 3:30 PM - 5:00 PM", 15,
    ["amelia@mergington.edu", "harper@mergington.edu"]⟩,
   ⟨"Drama Club",
    "Act, direct, and produce plays and performances",
    "Mondays and Wednesdays, 4:00 PM - 5:30 PM", 20,
    ["ella@mergington.edu", "scarlett@mergington.edu"]⟩,
   ⟨"Math Club",
    "Solve challenging problems and participate in math competitions",
    "Tuesdays, 3:30 PM - 4:30 PM", 10,
    ["james@mergington.edu", "benjamin@mergington.edu"]⟩,
   ⟨"Debate Team",
    "Develop public speaking and argumentation skills",
    "Fridays, 4:00 PM - 5:30 PM", 12,
    ["charlotte@mergington.edu", "henry@mergington.edu"]⟩]

/-- `db.query(Activity).count()`. -/
def count_activities (db : DBState) : Nat :=
  db.activities.length

/-- `db.add(Participant(email=email, activity_id=act.id))` during seeding. -/
def addFixtureParticipant (aid : Nat) (db : DBState) (email : String) : DBState :=
  { db with participants := db.participants ++ [⟨db.nextParticipantId, email, aid⟩],
            nextParticipantId := db.nextParticipantId + 1 }

/-- The seeding loop body for one fixture entry: `db.add(act); db.flush()`
assigns the next activity id, then each listed participant is added with that
activity id. -/
def seedActivity (db : DBState) (meta : FixtureActivity) : DBState :=
  let act : Activity :=
    ⟨db.nextActivityId, meta.name, meta.description, meta.schedule, meta.max_participants⟩
  let db1 := { db with activities := db.activities ++ [act],
                       nextActivityId := db.nextActivityId + 1 }
  meta.participants.foldl (addFixtureParticipant act.id) db1

/-- `on_startup` (src/src/app.py lines 97-120): seed the fixtures if and only
if the activity table is empty. -/
def on_startup (db : DBState) : DBState :=
  if count_activities db = 0 then initial_activities.foldl seedActivity db
  else db

/-- A freshly created store: empty tables, id counters at 1 (SQLite rowids
start at 1). -/
def emptyDB : DBState := ⟨[], [], 1, 1⟩

/-- A single-threaded client request against the service. -/
inductive Op where
  | signup (activity_name email : String)
  | unregister (activity_name email : String)
deriving Repr, DecidableEq

/-- The state after handling one request: a failing request (an
`HTTPException` raised before any write) leaves the store unchanged. -/
def applyOp (db : DBState) (op : Op) : DBState :=
  match op with
  | Op.signup n e =>
    match signup_for_activity n e db with
    | Except.ok (_, db2) => db2
    | Except.error _ => db
  | Op.unregister n e =>
    match unregister_from_activity n e db with
    | Except.ok (_, db2) => db2
    | Except.error _ => db

/-- The state after a single-threaded sequence of requests. -/
def run (db : DBState) (ops : List Op) : DBState :=
  ops.foldl applyOp db

/-- Primary-key uniqueness of the `activities` table: `id` is the primary key,
so no two rows share an id. -/
def UniqueActivityIds (db : DBState) : Prop :=
  (db.activities.map (fun a => a.id)).Nodup

/-- Auto-increment discipline of the `participants` table: every existing row
id is below the next id the table will assign. -/
def FreshParticipantIds (db : DBState) : Prop :=
  ∀ p ∈ db.participants, p.id < db.nextParticipantId

/-- Referential integrity: every participant row references the id of an
existing activity row. -/
def NoOrphans (db : DBState) : Prop :=
  ∀ p ∈ db.participants, ∃ a ∈ db.activities, p.activity_id = a.id

/-- The states the service can be in: the seeded fresh store, closed under
handling requests. -/
inductive Reachable : DBState → Prop where
  | startup : Reachable (on_startup emptyDB)
  | step (db : DBState) (op : Op) : Reachable db → Reachable (applyOp db op)

/-- Inversion of a successful signup: the activity was found, the duplicate
check and the capacity check both passed, and the result state appends the
fresh participant row. -/
theorem signup_ok_inv {activity_name email msg : String} {db db2 : DBState}
    (h : signup_for_activity activity_name email db = Except.ok (msg, db2)) :
    ∃ a, findActivity db activity_name = some a ∧
      (∀ p ∈ participantsOf db a.id, p.email ≠ email) ∧
      ¬(a.max_participants ≠ 0 ∧
        (participantsOf db a.id).length ≥ a.max_participants) ∧
      msg = "Signed up " ++ email ++ " for " ++ activity_name ∧
      db2 = { db with
        participants := db.participants ++ [⟨db.nextParticipantId, email, a.id⟩],
        nextParticipantId := db.nextParticipantId + 1 } := by
  unfold signup_for_activity at h
  split at h
  · exact absurd h (by simp)
  next a hf =>
    refine ⟨a, hf, ?_⟩
    by_cases hdup : (participantsOf db a.id).any (fun p => p.email == email) = true
    · rw [if_pos hdup] at h
      exact absurd h (by simp)
    · rw [if_neg hdup] at h
      have hdup' : ∀ p ∈ participantsOf db a.id, p.email ≠ email := by
        intro p hp
        have := (List.any_eq_false.mp (Bool.not_eq_true _ ▸ hdup : _ = false)) p hp
        simpa using this
      by_cases hcap : a.max_participants ≠ 0 ∧
          (participantsOf db a.id).length ≥ a.max_participants
      · rw [if_pos hcap] at h
        exact absurd h (by simp)
      · rw [if_neg hcap] at h
        simp only [Except.ok.injEq, Prod.mk.injEq] at h
        exact ⟨hdup', hcap, h.1.symm, h.2.symm⟩

/-- Constructive success of signup: if the activity is found, the email is not
yet registered and capacity is not exhausted, the call succeeds and appends
the fresh participant row. -/
theorem signup_ok_of {activity_name email : String} {db : DBState} {a : Activity}
    (hf : findActivity db activity_name = some a)
    (hdup : ∀ p ∈ participantsOf db a.id, p.email ≠ email)
    (hcap : a.max_participants = 0 ∨
      (participantsOf db a.id).length < a.max_participants) :
    signup_for_activity activity_name email db =
      Except.ok ("Signed up " ++ email ++ " for " ++ activity_name,
        { db with
          participants := db.participants ++ [⟨db.nextParticipantId, email, a.id⟩],
          nextParticipantId := db.nextParticipantId + 1 }) := by
  have hany : (participantsOf db a.id).any (fun p => p.email == email) = false := by
    rw [List.any_eq_false]
    intro p hp
    simpa using hdup p hp
  have hcap' : ¬(a.max_participants ≠ 0 ∧
      (participantsOf db a.id).length ≥ a.max_participants) := by
    rcases hcap with h0 | hlt
    · intro hc; exact hc.1 h0
    · intro hc; exact absurd hc.2 (Nat.not_le.mpr hlt)
  unfold signup_for_activity
  rw [hf]
  simp only [hany, Bool.false_eq_true, if_false, if_neg hcap']

/-- Signup on an unknown activity name raises 404 "Activity not found". -/
theorem signup_err_notfound {activity_name email : String} {db : DBState}
    (hf : findActivity db activity_name = none) :
    signup_for_activity activity_name email db =
      Except.error ⟨404, "Activity not found"⟩ := by
  unfold signup_for_activity
  rw [hf]

/-- Signup with an email already registered in the found activity raises 400
"Student is already signed up", whatever the capacity situation is. -/
theorem signup_err_dup {activity_name email : String} {db : DBState} {a : Activity}
    (hf : findActivity db activity_name = some a)
    (hdup : ∃ p ∈ participantsOf db a.id, p.email = email) :
    signup_for_activity activity_name email db =
      Except.error ⟨400, "Student is already signed up"⟩ := by
  have hany : (participantsOf db a.id).any (fun p => p.email == email) = true := by
    rw [List.any_eq_true]
    obtain ⟨p, hp, he⟩ := hdup
    exact ⟨p, hp, by simpa using he⟩
  unfold signup_for_activity
  rw [hf]
  simp [hany]

/-- Inversion of a successful unregister: the activity was found, a matching
participant row was found, and the result state erases exactly that row. -/
theorem unregister_ok_inv {activity_name email msg : String} {db db2 : DBState}
    (h : unregister_from_activity activity_name email db = Except.ok (msg, db2)) :
    ∃ a participant, findActivity db activity_name = some a ∧
      db.participants.find?
        (fun p => p.activity_id == a.id && p.email == email) = some participant ∧
      msg = "Unregistered " ++ email ++ " from " ++ activity_name ∧
      db2 = { db with participants :=
        db.participants.eraseP (fun p => p.id == participant.id) } := by
  unfold unregister_from_activity at h
  split at h
  · exact absurd h (by simp)
  next a hf =>
    split at h
    · exact absurd h (by simp)
    next participant hp =>
      simp only [Except.ok.injEq, Prod.mk.injEq] at h
      exact ⟨a, participant, hf, hp, h.1.symm, h.2.symm⟩

/-- Unregister on an unknown activity name raises 404 "Activity not found". -/
theorem unregister_err_notfound {activity_name email : String} {db : DBState}
    (hf : findActivity db activity_name = none) :
    unregister_from_activity activity_name email db =
      Except.error ⟨404, "Activity not found"⟩ := by
  unfold unregister_from_activity
  rw [hf]

/-- Unregister of an email with no participant row in the found activity
raises 400 "Student is not signed up for this activity". -/
theorem unregister_err_notsignedup {activity_name email : String} {db : DBState}
    {a : Activity} (hf : findActivity db activity_name = some a)
    (habs : ∀ p ∈ db.participants, ¬(p.activity_id = a.id ∧ p.email = email)) :
    unregister_from_activity activity_name email db =
      Except.error ⟨400, "Student is not signed up for this activity"⟩ := by
  have hfind : db.participants.find?
      (fun p => p.activity_id == a.id && p.email == email) = none := by
    rw [List.find?_eq_none]
    intro p hp
    have := habs p hp
    simp only [Bool.and_eq_true, beq_iff_eq]
    exact fun hc => this ⟨hc.1, hc.2⟩
  unfold unregister_from_activity
  rw [hf]
  simp [hfind]

/-- Neither handler ever touches the `activities` table. -/
theorem applyOp_activities (db : DBState) (op : Op) :
    (applyOp db op).activities = db.activities := by
  cases op with
  | signup n e =>
    simp only [applyOp]
    split
    next msg db2 h =>
      obtain ⟨a, -, -, -, -, hdb2⟩ := signup_ok_inv h
      rw [hdb2]
    next => rfl
  | unregister n e =>
    simp only [applyOp]
    split
    next msg db2 h =>
      obtain ⟨a, participant, -, -, -, hdb2⟩ := unregister_ok_inv h
      rw [hdb2]
    next => rfl

/-- An activity returned by the name lookup is a row of the table. -/
theorem findActivity_mem {db : DBState} {n : String} {a : Activity}
    (h : findActivity db n = some a) : a ∈ db.activities := by
  unfold findActivity at h
  exact List.mem_of_find?_eq_some h

/-- An activity returned by the name lookup carries the searched name. -/
theorem findActivity_name {db : DBState} {n : String} {a : Activity}
    (h : findActivity db n = some a) : a.name = n := by
  unfold findActivity at h
  simpa using List.find?_some h

/-- Under primary-key uniqueness, two activity rows with the same id are the
same row. -/
theorem activity_eq_of_id_eq {db : DBState} {a b : Activity}
    (hwf : UniqueActivityIds db) (ha : a ∈ db.activities) (hb : b ∈ db.activities)
    (hid : a.id = b.id) : a = b :=
  List.inj_on_of_nodup_map hwf ha hb hid

/-- Handling a request preserves primary-key uniqueness of activities. -/
theorem uniqueActivityIds_applyOp {db : DBState} (op : Op)
    (h : UniqueActivityIds db) : UniqueActivityIds (applyOp db op) := by
  unfold UniqueActivityIds at *
  rw [applyOp_activities]
  exact h

/-- Handling a request preserves the auto-increment discipline of the
participant table. -/
theorem freshParticipantIds_applyOp {db : DBState} (op : Op)
    (h : FreshParticipantIds db) : FreshParticipantIds (applyOp db op) := by
  cases op with
  | signup n e =>
    simp only [applyOp]
    split
    next msg db2 hok =>
      obtain ⟨a, -, -, -, -, hdb2⟩ := signup_ok_inv hok
      subst hdb2
      intro p hp
      simp only [List.mem_append, List.mem_singleton] at hp
      rcases hp with hp | rfl
      · exact Nat.lt_succ_of_lt (h p hp)
      · exact Nat.lt_succ_self _
    next => exact h
  | unregister n e =>
    simp only [applyOp]
    split
    next msg db2 hok =>
      obtain ⟨a, q, -, -, -, hdb2⟩ := unregister_ok_inv hok
      subst hdb2
      intro p hp
      exact h p ((List.eraseP_sublist _).subset hp)
    next => exact h

/-- Handling a request preserves referential integrity: signup only inserts a
participant referencing the activity row it just looked up, unregister only
deletes. -/
theorem noOrphans_applyOp {db : DBState} (op : Op)
    (h : NoOrphans db) : NoOrphans (applyOp db op) := by
  cases op with
  | signup n e =>
    simp only [applyOp]
    split
    next msg db2 hok =>
      obtain ⟨a, hfa, -, -, -, hdb2⟩ := signup_ok_inv hok
      subst hdb2
      intro p hp
      simp only [List.mem_append, List.mem_singleton] at hp
      rcases hp with hp | rfl
      · exact h p hp
      · exact ⟨a, findActivity_mem hfa, rfl⟩
    next => exact h
  | unregister n e =>
    simp only [applyOp]
    split
    next msg db2 hok =>
      obtain ⟨a, q, -, -, -, hdb2⟩ := unregister_ok_inv hok
      subst hdb2
      intro p hp
      exact h p ((List.eraseP_sublist _).subset hp)
    next => exact h

/-- One-step capacity preservation: handling any single request keeps the
participant count of a positively-capped activity at or below its cap. -/
theorem cap_applyOp {db : DBState} {a : Activity} (op : Op)
    (hwf : UniqueActivityIds db) (ha : a ∈ db.activities)
    (hpos : 0 < a.max_participants)
    (hle : (participantsOf db a.id).length ≤ a.max_participants) :
    (participantsOf (applyOp db op) a.id).length ≤ a.max_participants := by
  cases op with
  | unregister n e =>
    simp only [applyOp]
    split
    next msg db2 hok =>
      obtain ⟨b, q, -, -, -, hdb2⟩ := unregister_ok_inv hok
      subst hdb2
      refine le_trans ?_ hle
      unfold participantsOf
      exact (((List.eraseP_sublist _).filter _)).length_le
    next => exact hle
  | signup n e =>
    simp only [applyOp]
    split
    next msg db2 hok =>
      obtain ⟨b, hfb, hdup, hcap, -, hdb2⟩ := signup_ok_inv hok
      subst hdb2
      unfold participantsOf at hle ⊢
      simp only [List.filter_append, List.length_append]
      by_cases hid : b.id = a.id
      · have hba : b = a := activity_eq_of_id_eq hwf (findActivity_mem hfb) ha hid
        subst hba
        have hne : b.max_participants ≠ 0 := Nat.pos_iff_ne_zero.mp hpos
        rw [not_and] at hcap
        have hlt : (db.participants.filter
            (fun p => p.activity_id == b.id)).length < b.max_participants :=
          Nat.lt_of_not_le (hcap hne)
        simp only [List.filter_cons, List.filter_nil]
        simp only [beq_self_eq_true, if_pos]
        simpa using hlt
      · have : ((⟨db.nextParticipantId, e, b.id⟩ : Participant).activity_id == a.id) =
            false := by simpa using hid
        simp only [List.filter_cons, this, List.filter_nil, List.length_nil]
        simpa using hle
    next => exact hle

/-- Erasure skips a prefix in which nothing matches. -/
theorem eraseP_append_of_forall_neg {α : Type} {q : α → Bool} {l1 l2 : List α}
    (h : ∀ x ∈ l1, q x = false) :
    (l1 ++ l2).eraseP q = l1 ++ l2.eraseP q := by
  induction l1 with
  | nil => simp
  | cons x l ih =>
    simp only [List.cons_append, List.eraseP_cons, h x (List.mem_cons_self x l),
      cond_false, List.cons.injEq, true_and]
    exact ih (fun y hy => h y (List.mem_cons_of_mem x hy))

/-- Constructive success of unregister: if the activity and a matching
participant row are found, the call succeeds and erases that row. -/
theorem unregister_ok_of {activity_name email : String} {db : DBState}
    {a : Activity} {q : Participant}
    (hf : findActivity db activity_name = some a)
    (hq : db.participants.find?
      (fun p => p.activity_id == a.id && p.email == email) = some q) :
    unregister_from_activity activity_name email db =
      Except.ok ("Unregistered " ++ email ++ " from " ++ activity_name,
        { db with participants :=
            db.participants.eraseP (fun p => p.id == q.id) }) := by
  unfold unregister_from_activity
  rw [hf]
  dsimp only
  rw [hq]

/-- Claim C1: for every activity with a positive `max_participants` cap whose
participant count starts at or below the cap, no single-threaded sequence of
signup and unregister requests ever pushes its participant count above the
cap. -/
theorem C1_participant_count_never_exceeds_cap (db : DBState) (ops : List Op)
    (a : Activity) (hwf : UniqueActivityIds db) (ha : a ∈ db.activities)
    (hpos : 0 < a.max_participants)
    (hle : (participantsOf db a.id).length ≤ a.max_participants) :
    (participantsOf (run db ops) a.id).length ≤ a.max_participants := by
  induction ops generalizing db with
  | nil => exact hle
  | cons op ops ih =>
    simp only [run, List.foldl_cons]
    exact ih (applyOp db op) (uniqueActivityIds_applyOp op hwf)
      ((applyOp_activities db op).symm ▸ ha)
      (cap_applyOp op hwf ha hpos hle)

/-- A two-activity sample store: "Chess Club" (id 1, cap 2, one member) and
"Open Club" (id 2, cap 0 i.e. uncapped, two members). -/
def actChess : Activity := ⟨1, "Chess Club", "d", "s", 2⟩

def actOpen : Activity := ⟨2, "Open Club", "d", "s", 0⟩

def dbSample : DBState :=
  ⟨[actChess, actOpen],
   [⟨1, "michael@mergington.edu", 1⟩,
    ⟨2, "a@mergington.edu", 2⟩,
    ⟨3, "b@mergington.edu", 2⟩], 3, 4⟩

/-- A store in which "Chess Club" (cap 2) is exactly at capacity. -/
def dbFull : DBState :=
  ⟨[actChess],
   [⟨1, "michael@mergington.edu", 1⟩, ⟨2, "daniel@mergington.edu", 1⟩], 2, 3⟩

theorem C1_participant_count_never_exceeds_cap_witness :
    (participantsOf (run dbSample
      [Op.signup "Chess Club" "x@mergington.edu",
       Op.signup "Chess Club" "y@mergington.edu",
       Op.signup "Chess Club" "z@mergington.edu"] ) 1).length ≤ 2 :=
  C1_participant_count_never_exceeds_cap dbSample
    [Op.signup "Chess Club" "x@mergington.edu",
     Op.signup "Chess Club" "y@mergington.edu",
     Op.signup "Chess Club" "z@mergington.edu"]
    actChess (by unfold UniqueActivityIds; decide) (by decide) (by decide)
    (by decide)

/-- Claim C2: the signup checks run in a fixed order — existence, then
duplicate, then capacity.  A name with no matching activity fails 404
"Activity not found" for every email, and a duplicate email in an existing
activity fails 400 "Student is already signed up" with no regard to the
capacity situation (in particular even when the activity is at capacity). -/
theorem C2_signup_check_order :
    (∀ (db : DBState) (n e : String), findActivity db n = none →
      signup_for_activity n e db =
        Except.error ⟨404, "Activity not found"⟩) ∧
    (∀ (db : DBState) (n e : String) (a : Activity),
      findActivity db n = some a →
      (∃ p ∈ participantsOf db a.id, p.email = e) →
      signup_for_activity n e db =
        Except.error ⟨400, "Student is already signed up"⟩) :=
  ⟨fun _ _ _ hf => signup_err_notfound hf,
   fun _ _ _ _ hf hdup => signup_err_dup hf hdup⟩

theorem C2_signup_check_order_witness :
    signup_for_activity "Unknown Club" "x@mergington.edu" dbSample =
      Except.error ⟨404, "Activity not found"⟩ ∧
    signup_for_activity "Chess Club" "michael@mergington.edu" dbFull =
      Except.error ⟨400, "Student is already signed up"⟩ :=
  ⟨C2_signup_check_order.1 dbSample "Unknown Club" "x@mergington.edu" rfl,
   C2_signup_check_order.2 dbFull "Chess Club" "michael@mergington.edu"
     actChess rfl ⟨⟨1, "michael@mergington.edu", 1⟩, by decide, rfl⟩⟩

/-- Claim C3: whenever a signup succeeds, immediately unregistering the same
(activity, email) pair succeeds and restores the participant table — hence
every activity's ordered participant list — to exactly its pre-signup
content. -/
theorem C3_signup_unregister_roundtrip (db : DBState) (n e msg : String)
    (db2 : DBState) (hfresh : FreshParticipantIds db)
    (hok : signup_for_activity n e db = Except.ok (msg, db2)) :
    ∃ msg2 db3, unregister_from_activity n e db2 = Except.ok (msg2, db3) ∧
      db3.participants = db.participants := by
  obtain ⟨a, hfa, hdup, -, -, hdb2⟩ := signup_ok_inv hok
  have hfa2 : findActivity db2 n = some a := by rw [hdb2]; exact hfa
  have hpre : ∀ p ∈ db.participants,
      (p.activity_id == a.id && p.email == e) = false := by
    intro p hp
    by_cases hpa : p.activity_id = a.id
    · have hmem : p ∈ participantsOf db a.id := by
        unfold participantsOf
        rw [List.mem_filter]
        exact ⟨hp, by simpa using hpa⟩
      simp [hdup p hmem]
    · simp [hpa]
  have hfind2 : db2.participants.find?
      (fun p => p.activity_id == a.id && p.email == e) =
      some ⟨db.nextParticipantId, e, a.id⟩ := by
    rw [hdb2]
    dsimp only
    rw [List.find?_append, List.find?_eq_none.mpr
      (fun x hx => by simp [hpre x hx])]
    simp
  refine ⟨_, _, unregister_ok_of hfa2 hfind2, ?_⟩
  rw [hdb2]
  dsimp only
  rw [eraseP_append_of_forall_neg
    (fun p hp => by simp [Nat.ne_of_lt (hfresh p hp)])]
  simp

/-- The sample store after signing "x@mergington.edu" up for "Chess Club". -/
def dbSampleAfter : DBState :=
  ⟨[actChess, actOpen],
   [⟨1, "michael@mergington.edu", 1⟩,
    ⟨2, "a@mergington.edu", 2⟩,
    ⟨3, "b@mergington.edu", 2⟩,
    ⟨4, "x@mergington.edu", 1⟩], 3, 5⟩

theorem C3_signup_unregister_roundtrip_witness :
    ∃ msg2 db3,
      unregister_from_activity "Chess Club" "x@mergington.edu" dbSampleAfter =
        Except.ok (msg2, db3) ∧
      db3.participants = dbSample.participants :=
  C3_signup_unregister_roundtrip dbSample "Chess Club" "x@mergington.edu"
    "Signed up x@mergington.edu for Chess Club" dbSampleAfter
    (by unfold FreshParticipantIds; decide) rfl

/-- The participant-seeding loop never touches the activity table. -/
theorem foldl_addFixtureParticipant_activities (l : List String) (aid : Nat)
    (db : DBState) :
    (l.foldl (addFixtureParticipant aid) db).activities = db.activities := by
  induction l generalizing db with
  | nil => rfl
  | cons x xs ih => simp [List.foldl_cons, addFixtureParticipant, ih]

/-- The participant-seeding loop appends exactly the listed emails, in
order. -/
theorem foldl_addFixtureParticipant_emails (l : List String) (aid : Nat)
    (db : DBState) :
    (l.foldl (addFixtureParticipant aid) db).participants.map
        (fun p => p.email) =
      db.participants.map (fun p => p.email) ++ l := by
  induction l generalizing db with
  | nil => simp
  | cons x xs ih =>
    simp [List.foldl_cons, addFixtureParticipant, ih]

/-- Seeding one fixture appends exactly one activity row, built from the
fixture fields. -/
theorem seedActivity_activities (db : DBState) (f : FixtureActivity) :
    (seedActivity db f).activities = db.activities ++
      [⟨db.nextActivityId, f.name, f.description, f.schedule,
        f.max_participants⟩] := by
  simp [seedActivity, foldl_addFixtureParticipant_activities]

/-- Seeding one fixture appends exactly its listed participant emails. -/
theorem seedActivity_emails (db : DBState) (f : FixtureActivity) :
    (seedActivity db f).participants.map (fun p => p.email) =
      db.participants.map (fun p => p.email) ++ f.participants := by
  simp [seedActivity, foldl_addFixtureParticipant_emails]

/-- The seeding loop adds one activity row per fixture entry. -/
theorem seed_foldl_count (l : List FixtureActivity) (db : DBState) :
    (l.foldl seedActivity db).activities.length =
      db.activities.length + l.length := by
  induction l generalizing db with
  | nil => simp
  | cons f fs ih =>
    simp only [List.foldl_cons, List.length_cons, ih, seedActivity_activities,
      List.length_append, List.length_cons, List.length_nil]
    omega

/-- The seeding loop appends the fixture names, in order. -/
theorem seed_foldl_names (l : List FixtureActivity) (db : DBState) :
    (l.foldl seedActivity db).activities.map (fun a => a.name) =
      db.activities.map (fun a => a.name) ++ l.map (fun f => f.name) := by
  induction l generalizing db with
  | nil => simp
  | cons f fs ih =>
    simp [List.foldl_cons, ih, seedActivity_activities, List.append_assoc]

/-- The seeding loop appends the concatenation of the fixtures' listed
participant emails, in order. -/
theorem seed_foldl_emails (l : List FixtureActivity) (db : DBState) :
    (l.foldl seedActivity db).participants.map (fun p => p.email) =
      db.participants.map (fun p => p.email) ++
        (l.map (fun f => f.participants)).flatten := by
  induction l generalizing db with
  | nil => simp
  | cons f fs ih =>
    simp [List.foldl_cons, ih, seedActivity_emails, List.append_assoc]

/-- Claim C4: startup seeds the nine fixture activities and their listed
participants if and only if the activity count is zero, is a no-op otherwise,
and is idempotent — a second startup leaves the store, hence the activity
count, unchanged; the fixture count is 9. -/
theorem C4_seeding_runs_once (db : DBState) :
    (count_activities db = 0 →
      count_activities (on_startup db) = 9 ∧
      (on_startup db).activities.map (fun a => a.name) =
        initial_activities.map (fun f => f.name) ∧
      (on_startup db).participants.map (fun p => p.email) =
        db.participants.map (fun p => p.email) ++
          (initial_activities.map (fun f => f.participants)).flatten) ∧
    (count_activities db ≠ 0 → on_startup db = db) ∧
    on_startup (on_startup db) = on_startup db ∧
    initial_activities.length = 9 := by
  have hnoop : count_activities db ≠ 0 → on_startup db = db := by
    intro h
    unfold on_startup
    rw [if_neg h]
  refine ⟨?_, hnoop, ?_, rfl⟩
  · intro h0
    have hact : db.activities = [] := by
      unfold count_activities at h0
      exact List.length_eq_zero.mp h0
    unfold on_startup
    rw [if_pos h0]
    refine ⟨?_, ?_, seed_foldl_emails _ _⟩
    · unfold count_activities
      rw [seed_foldl_count, hact]
      rfl
    · rw [seed_foldl_names, hact]
      rfl
  · by_cases h0 : count_activities db = 0
    · have h9 : count_activities (on_startup db) = 9 := by
        unfold count_activities at h0
        unfold on_startup count_activities
        rw [if_pos h0, seed_foldl_count, h0]
        decide
      have hne : count_activities (on_startup db) ≠ 0 := by rw [h9]; decide
      rw [show on_startup (on_startup db) =
        (if count_activities (on_startup db) = 0 then
          initial_activities.foldl seedActivity (on_startup db)
        else on_startup db) from rfl, if_neg hne]
    · rw [hnoop h0, hnoop h0]

theorem C4_seeding_runs_once_witness :
    count_activities (on_startup emptyDB) = 9 ∧
    on_startup (on_startup emptyDB) = on_startup emptyDB ∧
    on_startup dbSample = dbSample :=
  ⟨((C4_seeding_runs_once emptyDB).1 rfl).1,
   (C4_seeding_runs_once emptyDB).2.2.1,
   (C4_seeding_runs_once dbSample).2.1 (by decide)⟩

/-- Claim C5: whenever a signup for (activity, email) succeeds, repeating the
identical signup against the resulting state fails with 400
"Student is already signed up", whatever other participants exist. -/
theorem C5_second_signup_rejected (db : DBState) (n e msg : String)
    (db2 : DBState)
    (hok : signup_for_activity n e db = Except.ok (msg, db2)) :
    signup_for_activity n e db2 =
      Except.error ⟨400, "Student is already signed up"⟩ := by
  obtain ⟨a, hfa, -, -, -, hdb2⟩ := signup_ok_inv hok
  have hfa2 : findActivity db2 n = some a := by rw [hdb2]; exact hfa
  apply signup_err_dup hfa2
  refine ⟨⟨db.nextParticipantId, e, a.id⟩, ?_, rfl⟩
  rw [hdb2]
  unfold participantsOf
  dsimp only
  rw [List.filter_append]
  simp

theorem C5_second_signup_rejected_witness :
    signup_for_activity "Chess Club" "x@mergington.edu" dbSampleAfter =
      Except.error ⟨400, "Student is already signed up"⟩ :=
  C5_second_signup_rejected dbSample "Chess Club" "x@mergington.edu"
    "Signed up x@mergington.edu for Chess Club" dbSampleAfter rfl

/-- Claim C6: for an activity whose `max_participants` is 0 the capacity check
is skipped — signup never fails with 400 "Activity is full" on it, however
many participants it already has. -/
theorem C6_zero_cap_never_full (db : DBState) (n e : String) (a : Activity)
    (hf : findActivity db n = some a) (h0 : a.max_participants = 0) :
    signup_for_activity n e db ≠ Except.error ⟨400, "Activity is full"⟩ := by
  intro hbad
  unfold signup_for_activity at hbad
  rw [hf] at hbad
  dsimp only at hbad
  by_cases hdup : (participantsOf db a.id).any (fun p => p.email == e) = true
  · rw [if_pos hdup] at hbad
    simp at hbad
  · rw [if_neg hdup, if_neg (by simp [h0])] at hbad
    simp at hbad

theorem C6_zero_cap_never_full_witness :
    signup_for_activity "Open Club" "c@mergington.edu" dbSample ≠
      Except.error ⟨400, "Activity is full"⟩ :=
  C6_zero_cap_never_full dbSample "Open Club" "c@mergington.edu" actOpen
    rfl rfl

/-- Claim C7: unregister fails 404 "Activity not found" on an unknown name and
400 "Student is not signed up for this activity" when no matching participant
row exists; and every failing signup or unregister leaves the store completely
unchanged, because every check happens before any write. -/
theorem C7_failures_leave_state_unchanged :
    (∀ (db : DBState) (n e : String), findActivity db n = none →
      unregister_from_activity n e db =
        Except.error ⟨404, "Activity not found"⟩) ∧
    (∀ (db : DBState) (n e : String) (a : Activity),
      findActivity db n = some a →
      (∀ p ∈ db.participants, ¬(p.activity_id = a.id ∧ p.email = e)) →
      unregister_from_activity n e db =
        Except.error ⟨400, "Student is not signed up for this activity"⟩) ∧
    (∀ (db : DBState) (n e : String) (err : HTTPException),
      signup_for_activity n e db = Except.error err →
      applyOp db (Op.signup n e) = db) ∧
    (∀ (db : DBState) (n e : String) (err : HTTPException),
      unregister_from_activity n e db = Except.error err →
      applyOp db (Op.unregister n e) = db) := by
  refine ⟨fun db n e hf => unregister_err_notfound hf,
          fun db n e a hf habs => unregister_err_notsignedup hf habs,
          ?_, ?_⟩
  · intro db n e err herr
    simp only [applyOp]
    rw [herr]
  · intro db n e err herr
    simp only [applyOp]
    rw [herr]

theorem C7_failures_leave_state_unchanged_witness :
    unregister_from_activity "Unknown Club" "x@mergington.edu" dbSample =
      Except.error ⟨404, "Activity not found"⟩ ∧
    unregister_from_activity "Chess Club" "ghost@mergington.edu" dbSample =
      Except.error ⟨400, "Student is not signed up for this activity"⟩ ∧
    applyOp dbFull (Op.signup "Chess Club" "zz@mergington.edu") = dbFull ∧
    applyOp dbSample (Op.unregister "Chess Club" "ghost@mergington.edu") =
      dbSample :=
  ⟨C7_failures_leave_state_unchanged.1 dbSample "Unknown Club"
     "x@mergington.edu" rfl,
   C7_failures_leave_state_unchanged.2.1 dbSample "Chess Club"
     "ghost@mergington.edu" actChess rfl (by decide),
   C7_failures_leave_state_unchanged.2.2.1 dbFull "Chess Club"
     "zz@mergington.edu" ⟨400, "Activity is full"⟩ rfl,
   C7_failures_leave_state_unchanged.2.2.2 dbSample "Chess Club"
     "ghost@mergington.edu"
     ⟨400, "Student is not signed up for this activity"⟩ rfl⟩

/-- Claim C8: referential integrity — handling any request preserves the
absence of orphan participants (signup only inserts a row referencing the
activity it just looked up, unregister only deletes), and every state
reachable from the seeded fresh store has no orphan participant. -/
theorem C8_no_orphan_participants :
    (∀ (db : DBState) (op : Op), NoOrphans db → NoOrphans (applyOp db op)) ∧
    (∀ db : DBState, Reachable db → NoOrphans db) := by
  refine ⟨fun db op h => noOrphans_applyOp op h, ?_⟩
  intro db h
  induction h with
  | startup =>
    unfold NoOrphans
    decide
  | step db op hr ih => exact noOrphans_applyOp op ih

theorem C8_no_orphan_participants_witness :
    NoOrphans (applyOp (on_startup emptyDB)
      (Op.signup "Chess Club" "x@mergington.edu")) :=
  C8_no_orphan_participants.2
    (applyOp (on_startup emptyDB) (Op.signup "Chess Club" "x@mergington.edu"))
    (Reachable.step (on_startup emptyDB)
      (Op.signup "Chess Club" "x@mergington.edu") Reachable.startup)

/-- Claim C9: a successful signup returns exactly the message
"Signed up {email} for {activity_name}", and the activity's ordered
participant list afterwards is the previous list with the new email appended,
so its length grows by exactly one. -/
theorem C9_signup_success_message_and_append (db : DBState) (n e msg : String)
    (db2 : DBState) (a : Activity) (hf : findActivity db n = some a)
    (hok : signup_for_activity n e db = Except.ok (msg, db2)) :
    msg = "Signed up " ++ e ++ " for " ++ n ∧
    (participantsOf db2 a.id).map (fun p => p.email) =
      (participantsOf db a.id).map (fun p => p.email) ++ [e] ∧
    (participantsOf db2 a.id).length = (participantsOf db a.id).length + 1 := by
  obtain ⟨b, hfb, -, -, hmsg, hdb2⟩ := signup_ok_inv hok
  rw [hf] at hfb
  obtain rfl : b = a := (Option.some.inj hfb).symm
  refine ⟨hmsg, ?_, ?_⟩
  · rw [hdb2]
    unfold participantsOf
    dsimp only
    rw [List.filter_append]
    simp
  · rw [hdb2]
    unfold participantsOf
    dsimp only
    rw [List.filter_append]
    simp

theorem C9_signup_success_message_and_append_witness :
    "Signed up x@mergington.edu for Chess Club" =
      "Signed up " ++ "x@mergington.edu" ++ " for " ++ "Chess Club" ∧
    (participantsOf dbSampleAfter 1).map (fun p => p.email) =
      (participantsOf dbSample 1).map (fun p => p.email) ++
        ["x@mergington.edu"] ∧
    (participantsOf dbSampleAfter 1).length =
      (participantsOf dbSample 1).length + 1 :=
  C9_signup_success_message_and_append dbSample "Chess Club"
    "x@mergington.edu" "Signed up x@mergington.edu for Chess Club"
    dbSampleAfter actChess rfl rfl

/-- Claim C10: signup never validates the email string itself — any string,
the empty string included, that is not yet registered in a found activity with
free (or unenforced) capacity is accepted and stored as a participant. -/
theorem C10_no_email_validation (db : DBState) (n : String) (a : Activity)
    (e : String) (hf : findActivity db n = some a)
    (hnew : ∀ p ∈ participantsOf db a.id, p.email ≠ e)
    (hcap : a.max_participants = 0 ∨
      (participantsOf db a.id).length < a.max_participants) :
    ∃ msg db2, signup_for_activity n e db = Except.ok (msg, db2) ∧
      (⟨db.nextParticipantId, e, a.id⟩ : Participant) ∈ db2.participants := by
  refine ⟨_, _, signup_ok_of hf hnew hcap, ?_⟩
  simp

theorem C10_no_email_validation_witness :
    ∃ msg db2, signup_for_activity "Chess Club" "" dbSample =
        Except.ok (msg, db2) ∧
      (⟨4, "", 1⟩ : Participant) ∈ db2.participants :=
  C10_no_email_validation dbSample "Chess Club" actChess "" rfl
    (by decide) (by decide)

end Mergington
